import Mathlib

/-!
Shallow embedding of the filter-coordination core of `src/src/base/base-mixin.ts`
(the dc.js `BaseMixin` class): the default filter-handler bundle
(`_defaultFilterHandler`, `_defaultHasFilterHandler`, `_defaultRemoveFilterHandler`,
`_defaultAddFilterHandler`, `_defaultResetFilterHandler`), the chart filter state
machine (`filter`, `replaceFilter`, `applyFilters`, `filters`, `hasFilter`), the
render lifecycle's mandatory-attribute validation (`render`,
`checkForMandatoryAttributes`), and the group render/redraw coordination
(`redrawGroup`, `renderGroup`).

Modelling conventions:
* Filter values are drawn from a linearly ordered carrier `α` (plain opaque data
  values), plus dc's `RangedFilter` predicate objects, which carry an
  `isFiltered` capability and the discriminant string "RangedFilter".  Records
  held by the data source are also drawn from `α`.
* JavaScript's relational operator `<=` between filter values is embedded as
  `jsLe`.  Between two plain values it is the order on `α`.  Between two ranged
  filters, JavaScript coerces both arrays to strings "lo,hi" and compares those;
  we use the lexicographic order on the pairs instead, which agrees with the
  string order on the only use the source makes of the operator: the mutual
  comparison `x <= y && x >= y`, which under either order holds exactly when the
  two ranged filters carry the same bounds.  Mixed comparisons (a plain value
  against a predicate-filter object) coerce through NaN in JavaScript and are
  always false, embedded as `false`.
* The external crossfilter dimension is modelled as the receiver of commands
  (`DimCommand`): each invocation of the default apply handler issues exactly
  one of `filter(null)`, `filterExact`, `filterRange`, `filterFunction`.
* Fallible/stateful code returns explicit traces (`CallTrace`), and thrown
  configuration errors are `Option String` error components.
-/

namespace DcBase

variable {α : Type} [LinearOrder α]

/-- A filter value: either a plain opaque data value, or a dc `RangedFilter`
predicate object carrying bounds `lo`, `hi`. -/
inductive FilterVal (α : Type) where
  | plain (v : α)
  | ranged (lo hi : α)
deriving DecidableEq

/-- Modelled from the spec: the `RangedFilter` class itself lives outside
`src/` ("a tagged range/point predicate object carrying an
`isFiltered(record) -> bool` test and a discriminant"); its predicate accepts
records in the half-open range `[lo, hi)`.  Plain values carry no `isFiltered`
capability (`filters[0].isFiltered` is undefined, hence falsy). -/
def isFilteredOf : FilterVal α → Option (α → Bool)
  | .plain _ => none
  | .ranged lo hi => some (fun d => decide (lo ≤ d) && decide (d < hi))

/-- Truthiness of the `isFiltered` property access on a filter value. -/
def hasIsFilteredCap (f : FilterVal α) : Bool :=
  (isFilteredOf f).isSome

/-- The `filterType` discriminant property of a filter value; `RangedFilter`
objects carry the string "RangedFilter", plain values have no such property. -/
def filterTypeOf : FilterVal α → Option String
  | .plain _ => none
  | .ranged _ _ => some "RangedFilter"

/-- Embedding of JavaScript `x <= y` on filter values (see the conventions at
the top of the file: pair-lexicographic order stands in for the string coercion
order on ranged filters; cross-kind comparisons are false). -/
def jsLe : FilterVal α → FilterVal α → Bool
  | .plain a, .plain b => decide (a ≤ b)
  | .ranged a b, .ranged c d => decide (a < c) || (decide (a = c) && decide (b ≤ d))
  | _, _ => false

/-- A command received by the external crossfilter dimension (the data-source
adapter interface `filter(null)` / `filterExact` / `filterRange` /
`filterFunction` of the spec's §6). -/
inductive DimCommand (α : Type) where
  | filterNull
  | filterExact (v : FilterVal α)
  | filterRange (v : FilterVal α)
  | filterFunction (p : α → Bool)

/-- The per-filter acceptance test used in the general predicate installed by
`_defaultFilterHandler`: a filter with an `isFiltered` capability is tested via
that predicate; a plain value filter via the closed-range test
`filter <= d && filter >= d` against the record. -/
def acceptsRec (f : FilterVal α) (d : α) : Bool :=
  match isFilteredOf f with
  | some p => p d
  | none => jsLe f (.plain d) && jsLe (.plain d) f

/-- The body of the `dimension.filterFunction` callback installed by the
default filter handler: the loop over `filters` returning true on the first
accepting filter. -/
def multiPred (filters : List (FilterVal α)) (d : α) : Bool :=
  filters.any (fun f => acceptsRec f d)

/-- Embedding of `_defaultFilterHandler` (src/src/base/base-mixin.ts:28-53).
The dimension argument is modelled as the command the handler sends it; the
returned list is the handler's return value `filters`. -/
def _defaultFilterHandler (filters : List (FilterVal α)) :
    DimCommand α × List (FilterVal α) :=
  match filters with
  | [] => (.filterNull, [])
  | [f] =>
      if !hasIsFilteredCap f then
        -- single value and not a function-based filter
        (.filterExact f, [f])
      else if filterTypeOf f = some "RangedFilter" then
        -- single range-based filter
        (.filterRange f, [f])
      else
        (.filterFunction (fun d => multiPred [f] d), [f])
  | _ => (.filterFunction (fun d => multiPred filters d), filters)

/-- Embedding of `_defaultHasFilterHandler` (base-mixin.ts:55-60).  The probe is
`Option` to cover `filter === null || typeof filter === 'undefined'`. -/
def _defaultHasFilterHandler (filters : List (FilterVal α))
    (probe : Option (FilterVal α)) : Bool :=
  match probe with
  | none => filters.length > 0
  | some x => filters.any (fun f => jsLe x f && jsLe f x)

/-- Embedding of `_defaultRemoveFilterHandler` (base-mixin.ts:62-70): splice out
the first element satisfying `filters[i] <= filter && filters[i] >= filter`. -/
def _defaultRemoveFilterHandler (filters : List (FilterVal α))
    (x : FilterVal α) : List (FilterVal α) :=
  match filters with
  | [] => []
  | f :: rest =>
      if jsLe f x && jsLe x f then rest
      else f :: _defaultRemoveFilterHandler rest x

/-- Embedding of `_defaultAddFilterHandler` (base-mixin.ts:72-75): push. -/
def _defaultAddFilterHandler (filters : List (FilterVal α))
    (x : FilterVal α) : List (FilterVal α) :=
  filters ++ [x]

/-- Embedding of `_defaultResetFilterHandler` (base-mixin.ts:77): fresh empty
array. -/
def _defaultResetFilterHandler (_filters : List (FilterVal α)) :
    List (FilterVal α) :=
  []

/-- The argument accepted by the `filter(...)` setter (base-mixin.ts:743-777):
`null`, a single filter value, or a batch — an array whose first element is an
array of values and which carries no `isFiltered` capability (the guard
`filter instanceof Array && filter[0] instanceof Array && !filter.isFiltered`). -/
inductive FilterArg (α : Type) where
  | null
  | single (v : FilterVal α)
  | batch (vs : List (FilterVal α))
deriving DecidableEq

/-- The filter-relevant state of a chart: its `_filters` array and whether a
dimension with a filter capability is bound
(`this._conf.dimension && this._conf.dimension.filter`). -/
structure Chart (α : Type) where
  filters : List (FilterVal α)
  hasDim : Bool

/-- Observable effects of one `filter`/`replaceFilter` call: how many times the
filter-apply handler ran, the commands the data source received, and the
payloads of the fired `filtered` events. -/
structure CallTrace (α : Type) where
  applyCount : Nat
  dimCmds : List (DimCommand α)
  filteredEvents : List (FilterArg α)

/-- A pluggable filter-apply handler as `applyFilters` consumes it: given the
local filter list it returns the (possibly `undefined`, i.e. `none`) list to
adopt and the commands it sent to the dimension. -/
def FilterHandler (α : Type) : Type :=
  List (FilterVal α) → Option (List (FilterVal α)) × List (DimCommand α)

/-- The default filter handler packaged as a pluggable handler: it always
returns its filter list (truthy, hence adopted) and sends one command. -/
def defaultFilterHandlerH : FilterHandler α := fun filters =>
  let r := _defaultFilterHandler filters
  (some r.2, [r.1])

/-- Embedding of `applyFilters` (base-mixin.ts:668-676), generic in the
configured `filterHandler`: when a dimension with a filter capability is bound,
the handler is invoked once and a truthy (`some`) result replaces the local
list (`if (fs) { filters = fs; }`); otherwise the local list is kept and the
handler is not invoked.  Returns (resulting list, handler invocation count,
dimension commands). -/
def applyFiltersW (h : FilterHandler α) (hasDim : Bool)
    (filters : List (FilterVal α)) :
    List (FilterVal α) × Nat × List (DimCommand α) :=
  if hasDim then
    match h filters with
    | (some fs, cmds) => (fs, 1, cmds)
    | (none, cmds) => (filters, 1, cmds)
  else (filters, 0, [])

/-- One toggle step of the `filter` setter with the default has/remove/add
handlers: `if (hasFilterHandler(filters, f)) remove else add`. -/
def toggleOne (filters : List (FilterVal α)) (v : FilterVal α) :
    List (FilterVal α) :=
  if _defaultHasFilterHandler filters (some v) then
    _defaultRemoveFilterHandler filters v
  else
    _defaultAddFilterHandler filters v

/-- The local filter-list mutation performed by the `filter` setter before
`applyFilters` runs: element-wise toggles for a batch, reset for `null`, and a
single toggle otherwise (base-mixin.ts:747-766), with the default
has/remove/add/reset handlers. -/
def toggledList (cur : List (FilterVal α)) : FilterArg α → List (FilterVal α)
  | .batch vs => vs.foldl (fun fs f => toggleOne fs f) cur
  | .null => _defaultResetFilterHandler cur
  | .single v => toggleOne cur v

/-- Embedding of the `filter(filter)` setter (base-mixin.ts:743-777), generic
in the configured filter-apply handler but with the default
has/remove/add/reset handlers: mutate the local list, pass it through
`applyFilters` into `_filters`, fire `filtered` with the originating value. -/
def filterSetW (h : FilterHandler α) (c : Chart α) (arg : FilterArg α) :
    Chart α × CallTrace α :=
  let filters := toggledList c.filters arg
  let r := applyFiltersW h c.hasDim filters
  ({ c with filters := r.1 }, ⟨r.2.1, r.2.2, [arg]⟩)

/-- The `filter` setter with the full default handler bundle. -/
def filterSet (c : Chart α) (arg : FilterArg α) : Chart α × CallTrace α :=
  filterSetW defaultFilterHandlerH c arg

/-- Embedding of `replaceFilter` (base-mixin.ts:685-689): reset `_filters` via
the reset handler without applying, then run the `filter` setter once. -/
def replaceFilterOp (c : Chart α) (arg : FilterArg α) : Chart α × CallTrace α :=
  filterSet { c with filters := _defaultResetFilterHandler c.filters } arg

/-- Embedding of the no-argument `filter()` getter (base-mixin.ts:744-746):
`this._filters.length > 0 ? this._filters[0] : null`. -/
def filterGet (c : Chart α) : Option (FilterVal α) :=
  match c.filters with
  | [] => none
  | f :: _ => some f

/-- Embedding of `filters()` (base-mixin.ts:785-787): the internal array. -/
def filtersAccessor (c : Chart α) : List (FilterVal α) :=
  c.filters

/-- Embedding of `hasFilter(filter?)` (base-mixin.ts:664-666) with the default
has-filter handler. -/
def hasFilterOp (c : Chart α) (probe : Option (FilterVal α)) : Bool :=
  _defaultHasFilterHandler c.filters probe

/-! ### Render lifecycle: mandatory-attribute validation -/

/-- Observable lifecycle steps of one `render()` call. -/
inductive RenderEvent where
  | preRender
  | doRender
  | legendRender
  | pretransition
  | renderlet
  | postRender
deriving DecidableEq

/-- The render-relevant state of a chart.  `attrs` is the chart's method table
restricted to attribute accessors: `none` models an absent accessor
(`!this[a]`), `some b` a present accessor whose no-argument call returns a
value of truthiness `b`.  `mandatoryList` is `_mandatoryAttributesList`
(`none` models a falsy list, which skips the check); `anchorNm` is the value of
`anchorName()`. -/
structure RenderChart where
  attrs : String → Option Bool
  anchorNm : String
  mandatoryList : Option (List String)
  hasLegend : Bool

/-- Whether `checkForMandatoryAttributes` passes for attribute `a`:
`this[a]` present and `this[a]()` truthy. -/
def attrOk (c : RenderChart) (a : String) : Bool :=
  match c.attrs a with
  | some true => true
  | _ => false

/-- The configuration-error message thrown by `checkForMandatoryAttributes`
(base-mixin.ts:530-534). -/
def mandatoryMsg (a nm : String) : String :=
  "Mandatory attribute chart." ++ a ++ " is missing on chart[#" ++ nm ++ "]"

/-- The default `_mandatoryAttributesList` set in the constructor
(base-mixin.ts:164). -/
def defaultMandatoryAttributesList : List String :=
  ["dimension", "group"]

/-- Embedding of `render()` (base-mixin.ts:543-560): invalidate the size cache
(no observable event), fire `preRender`, check the mandatory attributes in
order and throw on the first failure, then run `_doRender`, the legend render,
and the renderlet activation tagged `postRender`.  Returns the fired events and
the thrown configuration error, if any. -/
def renderRun (c : RenderChart) : List RenderEvent × Option String :=
  match (c.mandatoryList.getD []).find? (fun a => !attrOk c a) with
  | some a => ([.preRender], some (mandatoryMsg a c.anchorNm))
  | none =>
      ([.preRender, .doRender]
        ++ (if c.hasLegend then [.legendRender] else [])
        ++ [.pretransition, .renderlet, .postRender], none)

/-! ### Group coordination: commit handler gating -/

/-- Observable actions of one `redrawGroup()`/`renderGroup()` call: the commit
handler invocation with the flag it was passed, an error logged via
`console.log`, and the group-wide fan-outs `redrawAll()` / `renderAll()`. -/
inductive GroupAction where
  | commitCall (flag : Bool)
  | logError (e : String)
  | redrawAllCall
  | renderAllCall
deriving DecidableEq

/-- A configured commit handler is modelled by the outcome it reports to its
completion callback: `some e` an error, `none` success.  An unconfigured
handler is the outer `none`. -/
def CommitConf : Type :=
  Option (Option String)

/-- Embedding of `redrawGroup()` (base-mixin.ts:612-625): with a commit handler
configured it is invoked with flag `false` and a callback that logs an error or
else calls `chartGroup().redrawAll()`; without one, `redrawAll()` runs
directly.  Total function: no exception propagates. -/
def redrawGroupRun (commit : CommitConf) : List GroupAction :=
  match commit with
  | none => [.redrawAllCall]
  | some outcome =>
      .commitCall false ::
        (match outcome with
          | some e => [.logError e]
          | none => [.redrawAllCall])

/-- Embedding of `renderGroup()` (base-mixin.ts:632-645): identical to
`redrawGroup` — including the flag `false` passed to the commit handler — but
fanning out via `renderAll()`. -/
def renderGroupRun (commit : CommitConf) : List GroupAction :=
  match commit with
  | none => [.renderAllCall]
  | some outcome =>
      .commitCall false ::
        (match outcome with
          | some e => [.logError e]
          | none => [.renderAllCall])

/-! ### Helper lemmas -/

/-- The mutual comparison `x <= y && x >= y` used throughout the default
handlers holds exactly when the two filter values are equal. -/
theorem jsLe_conj_iff (x y : FilterVal α) :
    (jsLe x y && jsLe y x) = true ↔ x = y := by
  cases x with
  | plain a =>
    cases y with
    | plain b =>
      simp only [jsLe, Bool.and_eq_true, decide_eq_true_eq, FilterVal.plain.injEq]
      exact ⟨fun h => le_antisymm h.1 h.2, fun h => ⟨le_of_eq h, ge_of_eq h⟩⟩
    | ranged c d => simp [jsLe]
  | ranged a b =>
    cases y with
    | plain c => simp [jsLe]
    | ranged c d =>
      simp only [jsLe, Bool.and_eq_true, Bool.or_eq_true, decide_eq_true_eq,
        FilterVal.ranged.injEq]
      constructor
      · rintro ⟨h1 | ⟨rfl, hbd⟩, h2 | ⟨heq, hdb⟩⟩
        · exact absurd h2 (lt_asymm h1)
        · exact absurd h1 (by simp [heq])
        · exact absurd h2 (lt_irrefl a)
        · exact ⟨rfl, le_antisymm hbd hdb⟩
      · rintro ⟨rfl, rfl⟩
        exact ⟨Or.inr ⟨rfl, le_refl b⟩, Or.inr ⟨rfl, le_refl b⟩⟩

/-- The default has-filter handler with a probe is list membership. -/
theorem hasHandler_some_iff (l : List (FilterVal α)) (v : FilterVal α) :
    _defaultHasFilterHandler l (some v) = true ↔ v ∈ l := by
  rw [show _defaultHasFilterHandler l (some v)
        = l.any (fun f => jsLe v f && jsLe f v) from rfl, List.any_eq_true]
  constructor
  · rintro ⟨f, hf, hc⟩
    rw [(jsLe_conj_iff v f).mp hc]
    exact hf
  · intro hv
    exact ⟨v, hv, (jsLe_conj_iff v v).mpr rfl⟩

/-- The default remove handler erases the first occurrence. -/
theorem removeHandler_eq_erase (l : List (FilterVal α)) (x : FilterVal α) :
    _defaultRemoveFilterHandler l x = l.erase x := by
  induction l with
  | nil => rfl
  | cons f t ih =>
    rw [show _defaultRemoveFilterHandler (f :: t) x
          = if jsLe f x && jsLe x f then t else f :: _defaultRemoveFilterHandler t x
        from rfl]
    rw [List.erase_cons, ih]
    by_cases h : f = x
    · subst h
      rw [if_pos ((jsLe_conj_iff f f).mpr rfl), if_pos (by simp)]
    · rw [if_neg (fun hc => h ((jsLe_conj_iff f x).mp hc)), if_neg (by simp [h])]

/-- Toggling a value already present removes its first occurrence. -/
theorem toggleOne_of_mem {l : List (FilterVal α)} {v : FilterVal α}
    (h : v ∈ l) : toggleOne l v = l.erase v := by
  rw [toggleOne, if_pos ((hasHandler_some_iff l v).mpr h),
    removeHandler_eq_erase]

/-- Toggling an absent value appends it. -/
theorem toggleOne_of_not_mem {l : List (FilterVal α)} {v : FilterVal α}
    (h : v ∉ l) : toggleOne l v = l ++ [v] := by
  rw [toggleOne, if_neg (fun hc => h ((hasHandler_some_iff l v).mp hc))]
  rfl

/-- The default filter handler returns the filter list it was given. -/
theorem defaultFilterHandler_snd (l : List (FilterVal α)) :
    (_defaultFilterHandler l).2 = l := by
  match l with
  | [] => rfl
  | [f] =>
    simp only [_defaultFilterHandler]
    split
    · rfl
    · split <;> rfl
  | f :: g :: t => rfl

/-- With the default handler bundle, `filter(arg)` stores exactly the locally
toggled list (the default apply handler hands the same list back). -/
theorem filterSet_filters (c : Chart α) (arg : FilterArg α) :
    (filterSet c arg).1.filters = toggledList c.filters arg := by
  cases hd : c.hasDim <;>
    simp [filterSet, filterSetW, applyFiltersW, defaultFilterHandlerH, hd,
      defaultFilterHandler_snd]

/-- `filter(arg)` does not change whether a dimension is bound. -/
theorem filterSet_hasDim (c : Chart α) (arg : FilterArg α) :
    (filterSet c arg).1.hasDim = c.hasDim := by
  cases hd : c.hasDim <;>
    simp [filterSet, filterSetW, applyFiltersW, defaultFilterHandlerH, hd]

/-! ### Claim theorems -/

/-- C1: the default filter-apply handler clears the dimension on an empty
list, applies an exact-match filter for a singleton without an `isFiltered`
capability, a range filter for a singleton with the "RangedFilter"
discriminant, and otherwise installs a predicate accepting a record `d` iff
some filter in the list accepts `d` (an `isFiltered` filter via its predicate,
a plain value via the closed-range test); in every case it returns the filter
list it was given. -/
theorem c1_defaultFilterHandler_policy (filters : List (FilterVal α)) :
    (_defaultFilterHandler filters).2 = filters ∧
    (filters = [] → (_defaultFilterHandler filters).1 = DimCommand.filterNull) ∧
    (∀ v, filters = [v] → hasIsFilteredCap v = false →
      (_defaultFilterHandler filters).1 = DimCommand.filterExact v) ∧
    (∀ v, filters = [v] → filterTypeOf v = some "RangedFilter" →
      (_defaultFilterHandler filters).1 = DimCommand.filterRange v) ∧
    (2 ≤ filters.length →
      ∃ p, (_defaultFilterHandler filters).1 = DimCommand.filterFunction p ∧
        ∀ d, p d = true ↔ ∃ f ∈ filters, acceptsRec f d = true) := by
  refine ⟨defaultFilterHandler_snd filters, ?_, ?_, ?_, ?_⟩
  · rintro rfl; rfl
  · rintro v rfl hcap
    simp [_defaultFilterHandler, hcap]
  · rintro v rfl htype
    cases v with
    | plain a => simp [filterTypeOf] at htype
    | ranged lo hi =>
        simp [_defaultFilterHandler, hasIsFilteredCap, isFilteredOf, filterTypeOf]
  · intro h2
    cases filters with
    | nil => simp at h2
    | cons f t =>
      cases t with
      | nil => simp at h2
      | cons g t' =>
        exact ⟨fun d => multiPred (f :: g :: t') d, rfl,
          fun d => by simp [multiPred, List.any_eq_true]⟩

/-- Witness for C1: at the two-element list [5, 9] the hypotheses hold and the
handler installs the any-filter predicate. -/
theorem c1_witness :
    2 ≤ ([FilterVal.plain (5 : Int), FilterVal.plain 9]).length ∧
    ∃ p, (_defaultFilterHandler [FilterVal.plain (5 : Int), FilterVal.plain 9]).1
        = DimCommand.filterFunction p ∧
      ∀ d, p d = true ↔
        ∃ f ∈ [FilterVal.plain (5 : Int), FilterVal.plain 9], acceptsRec f d = true :=
  ⟨by decide,
    (c1_defaultFilterHandler_policy
      [FilterVal.plain (5 : Int), FilterVal.plain 9]).2.2.2.2 (by decide)⟩

/-- C4 (amended): the default has-filter handler with a null/absent probe is
the non-empty test; with a probe it asks whether some current filter passes the
closed-range test `probe <= f && probe >= f` against the probe — the stored
filter's `isFiltered` capability is NOT consulted, contrary to the original
claim. -/
theorem c4_hasFilterHandler_closed_range_only (filters : List (FilterVal α))
    (probe : Option (FilterVal α)) :
    (probe = none →
      (_defaultHasFilterHandler filters probe = true ↔ filters ≠ [])) ∧
    (∀ x, probe = some x →
      (_defaultHasFilterHandler filters probe = true ↔
        ∃ f ∈ filters, (jsLe x f && jsLe f x) = true)) := by
  constructor
  · rintro rfl
    simp [_defaultHasFilterHandler, List.length_pos]
  · rintro x rfl
    rw [show _defaultHasFilterHandler filters (some x)
          = filters.any (fun f => jsLe x f && jsLe f x) from rfl,
      List.any_eq_true]

/-- Counterexample for C4 as stated: the stored filter `ranged 1 5` accepts the
record 3 via its `isFiltered` predicate (the test the claim says `hasFilter`
uses), yet the handler answers false, because it only runs the closed-range
comparison, which is false between a plain probe and a predicate object. -/
theorem c4_counterexample :
    _defaultHasFilterHandler [FilterVal.ranged (1 : Int) 5]
        (some (FilterVal.plain 3)) = false ∧
    acceptsRec (FilterVal.ranged (1 : Int) 5) (3 : Int) = true := by
  decide

/-- Witness for C4 (amended): with a present probe equal to a stored plain
value the handler answers via the closed-range test. -/
theorem c4_witness :
    _defaultHasFilterHandler [FilterVal.plain (2 : Int)]
        (some (FilterVal.plain 2)) = true ↔
      ∃ f ∈ [FilterVal.plain (2 : Int)],
        (jsLe (FilterVal.plain (2 : Int)) f && jsLe f (FilterVal.plain 2)) = true :=
  (c4_hasFilterHandler_closed_range_only [FilterVal.plain (2 : Int)]
    (some (FilterVal.plain 2))).2 (FilterVal.plain 2) rfl

/-- C7: when the configured commit handler reports an error, `redrawGroup`
logs that error, never fans out via `redrawAll` (so no member's redraw runs),
and returns normally (the embedding is a total function; no exception escapes). -/
theorem c7_redrawGroup_commit_error (e : String) :
    redrawGroupRun (some (some e))
        = [GroupAction.commitCall false, GroupAction.logError e] ∧
    GroupAction.redrawAllCall ∉ redrawGroupRun (some (some e)) ∧
    GroupAction.logError e ∈ redrawGroupRun (some (some e)) := by
  refine ⟨rfl, ?_, ?_⟩ <;> simp [redrawGroupRun]

/-- Witness for C7 at a concrete error message. -/
theorem c7_witness :
    redrawGroupRun (some (some "commit failed"))
        = [GroupAction.commitCall false, GroupAction.logError "commit failed"] ∧
    GroupAction.redrawAllCall ∉ redrawGroupRun (some (some "commit failed")) ∧
    GroupAction.logError "commit failed"
        ∈ redrawGroupRun (some (some "commit failed")) :=
  c7_redrawGroup_commit_error "commit failed"

/-- C8 (code evaluated at the failing input): with a commit handler configured,
the successful callback fans out to `renderAll`/`redrawAll` respectively, but
BOTH `renderGroup` and `redrawGroup` pass `false` as the first commit-handler
argument — the flag does not distinguish render from redraw, contradicting the
claim (and the spec's intent that it is a "render vs redraw" flag). -/
theorem c8_commit_flag_not_distinguishing :
    renderGroupRun (some none)
        = [GroupAction.commitCall false, GroupAction.renderAllCall] ∧
    redrawGroupRun (some none)
        = [GroupAction.commitCall false, GroupAction.redrawAllCall] ∧
    renderGroupRun (some (some "err"))
        = [GroupAction.commitCall false, GroupAction.logError "err"] :=
  ⟨rfl, rfl, rfl⟩

/-- C6: when some listed mandatory attribute accessor is absent or returns a
falsy value, `render()` fires `preRender`, then throws the configuration error
naming a missing attribute and the chart's anchor name, and `_doRender` never
runs; the default mandatory list is [dimension, group]. -/
theorem c6_render_mandatory_check (c : RenderChart) (a : String)
    (hmem : a ∈ c.mandatoryList.getD []) (hbad : attrOk c a = false) :
    defaultMandatoryAttributesList = ["dimension", "group"] ∧
    ∃ a', a' ∈ c.mandatoryList.getD [] ∧ attrOk c a' = false ∧
      renderRun c = ([RenderEvent.preRender], some (mandatoryMsg a' c.anchorNm)) ∧
      RenderEvent.doRender ∉ (renderRun c).1 ∧
      RenderEvent.preRender ∈ (renderRun c).1 := by
  refine ⟨rfl, ?_⟩
  have hsome : ((c.mandatoryList.getD []).find? (fun x => !attrOk c x)).isSome :=
    List.find?_isSome.mpr ⟨a, hmem, by simp [hbad]⟩
  obtain ⟨a', heq⟩ := Option.isSome_iff_exists.mp hsome
  have hmem' : a' ∈ c.mandatoryList.getD [] := List.mem_of_find?_eq_some heq
  have hbad' : attrOk c a' = false := by
    have := List.find?_some heq
    simpa using this
  have hrun : renderRun c
      = ([RenderEvent.preRender], some (mandatoryMsg a' c.anchorNm)) := by
    rw [renderRun, heq]
  exact ⟨a', hmem', hbad', hrun, by rw [hrun]; simp, by rw [hrun]; simp⟩

/-- Witness for C6: a chart whose dimension accessor is fine but whose group
accessor is absent; render stops after preRender with the error naming "group"
and the chart's anchor. -/
theorem c6_witness :
    "group" ∈ ((⟨fun a => if a = "dimension" then some true else none,
        "chart-1", some defaultMandatoryAttributesList, false⟩ :
          RenderChart).mandatoryList.getD []) ∧
    attrOk (⟨fun a => if a = "dimension" then some true else none,
        "chart-1", some defaultMandatoryAttributesList, false⟩ : RenderChart)
        "group" = false ∧
    (defaultMandatoryAttributesList = ["dimension", "group"] ∧
      ∃ a', a' ∈ ((⟨fun a => if a = "dimension" then some true else none,
          "chart-1", some defaultMandatoryAttributesList, false⟩ :
            RenderChart).mandatoryList.getD []) ∧
        attrOk (⟨fun a => if a = "dimension" then some true else none,
            "chart-1", some defaultMandatoryAttributesList, false⟩ : RenderChart)
            a' = false ∧
        renderRun (⟨fun a => if a = "dimension" then some true else none,
            "chart-1", some defaultMandatoryAttributesList, false⟩ : RenderChart)
          = ([RenderEvent.preRender], some (mandatoryMsg a' "chart-1")) ∧
        RenderEvent.doRender ∉ (renderRun
          (⟨fun a => if a = "dimension" then some true else none,
            "chart-1", some defaultMandatoryAttributesList, false⟩ :
              RenderChart)).1 ∧
        RenderEvent.preRender ∈ (renderRun
          (⟨fun a => if a = "dimension" then some true else none,
            "chart-1", some defaultMandatoryAttributesList, false⟩ :
              RenderChart)).1) :=
  ⟨by decide, by decide,
    c6_render_mandatory_check _ "group" (by decide) (by decide)⟩

/-- C2: with the default handler bundle, `replaceFilter(v)` reaches the same
stored filter state as `filter(null)` then `filter(v)`, while invoking the
filter-apply handler exactly once, firing `filtered` exactly once with payload
`v`, and sending the data source only the single command derived from the
final filter list (the intermediate cleared state is never exposed). -/
theorem c2_replaceFilter_applies_once (c : Chart α) (v : FilterArg α)
    (h : c.hasDim = true) :
    (replaceFilterOp c v).1.filters
        = (filterSet (filterSet c FilterArg.null).1 v).1.filters ∧
    (replaceFilterOp c v).2.applyCount = 1 ∧
    (replaceFilterOp c v).2.filteredEvents = [v] ∧
    (replaceFilterOp c v).2.dimCmds
        = [(_defaultFilterHandler ((replaceFilterOp c v).1.filters)).1] := by
  have hnull : (filterSet c FilterArg.null).1.filters = [] := by
    rw [filterSet_filters]
    rfl
  have heq : (replaceFilterOp c v).1.filters
      = (filterSet (filterSet c FilterArg.null).1 v).1.filters := by
    rw [replaceFilterOp, filterSet_filters, filterSet_filters, hnull]
    rfl
  refine ⟨heq, ?_, ?_, ?_⟩
  · simp [replaceFilterOp, filterSet, filterSetW, applyFiltersW,
      defaultFilterHandlerH, h]
  · simp [replaceFilterOp, filterSet, filterSetW, applyFiltersW,
      defaultFilterHandlerH, h]
  · simp [replaceFilterOp, filterSet, filterSetW, applyFiltersW,
      defaultFilterHandlerH, h, defaultFilterHandler_snd]

/-- Witness for C2: replacing the filter 1 by the filter 2 stores [2], applies
once, fires once. -/
theorem c2_witness :
    (⟨[FilterVal.plain (1 : Int)], true⟩ : Chart Int).hasDim = true ∧
    ((replaceFilterOp (⟨[FilterVal.plain (1 : Int)], true⟩ : Chart Int)
        (FilterArg.single (FilterVal.plain 2))).1.filters
      = (filterSet (filterSet (⟨[FilterVal.plain (1 : Int)], true⟩ : Chart Int)
          FilterArg.null).1 (FilterArg.single (FilterVal.plain 2))).1.filters ∧
    (replaceFilterOp (⟨[FilterVal.plain (1 : Int)], true⟩ : Chart Int)
        (FilterArg.single (FilterVal.plain 2))).2.applyCount = 1 ∧
    (replaceFilterOp (⟨[FilterVal.plain (1 : Int)], true⟩ : Chart Int)
        (FilterArg.single (FilterVal.plain 2))).2.filteredEvents
      = [FilterArg.single (FilterVal.plain 2)] ∧
    (replaceFilterOp (⟨[FilterVal.plain (1 : Int)], true⟩ : Chart Int)
        (FilterArg.single (FilterVal.plain 2))).2.dimCmds
      = [(_defaultFilterHandler ((replaceFilterOp
            (⟨[FilterVal.plain (1 : Int)], true⟩ : Chart Int)
            (FilterArg.single (FilterVal.plain 2))).1.filters)).1]) :=
  ⟨rfl, c2_replaceFilter_applies_once _ _ rfl⟩

/-- C9: after the local mutation of a `filter` call, the filter-apply handler
runs exactly when a dimension with a filter capability is bound (once, else not
at all); a non-undefined list returned by the handler becomes the canonical
filter set observable through `filters()`, and otherwise the locally computed
list is kept. -/
theorem c9_applyFilters_canonical (h : FilterHandler α) (c : Chart α)
    (arg : FilterArg α) :
    ((applyFiltersW h c.hasDim (toggledList c.filters arg)).2.1
        = if c.hasDim then 1 else 0) ∧
    (filtersAccessor (filterSetW h c arg).1
        = (applyFiltersW h c.hasDim (toggledList c.filters arg)).1) ∧
    (c.hasDim = true → ∀ fs cmds,
      h (toggledList c.filters arg) = (some fs, cmds) →
      filtersAccessor (filterSetW h c arg).1 = fs) ∧
    (c.hasDim = true → ∀ cmds,
      h (toggledList c.filters arg) = (none, cmds) →
      filtersAccessor (filterSetW h c arg).1 = toggledList c.filters arg) ∧
    (c.hasDim = false →
      filtersAccessor (filterSetW h c arg).1 = toggledList c.filters arg) := by
  cases hd : c.hasDim with
  | false =>
      refine ⟨by simp [applyFiltersW], ?_, ?_, ?_, ?_⟩ <;>
        simp [filterSetW, applyFiltersW, filtersAccessor, hd]
  | true =>
      rcases hh : h (toggledList c.filters arg) with ⟨res, cmds⟩
      cases res with
      | some fs =>
          refine ⟨by simp [applyFiltersW, hh], ?_, ?_, ?_, ?_⟩
          · simp [filterSetW, applyFiltersW, filtersAccessor, hd, hh]
          · intro _ fs' cmds' hh'
            injection hh' with h1 h2
            injection h1 with h1
            simp [filterSetW, applyFiltersW, filtersAccessor, hd, hh, h1]
          · intro _ cmds' hh'
            injection hh' with h1 h2
            exact absurd h1 (by simp)
          · intro hfalse
            simp [hd] at hfalse
      | none =>
          refine ⟨by simp [applyFiltersW, hh], ?_, ?_, ?_, ?_⟩
          · simp [filterSetW, applyFiltersW, filtersAccessor, hd, hh]
          · intro _ fs' cmds' hh'
            injection hh' with h1 h2
            exact absurd h1 (by simp)
          · intro _ cmds' hh'
            simp [filterSetW, applyFiltersW, filtersAccessor, hd, hh]
          · intro hfalse
            simp [hd] at hfalse

/-- Witness for C9: a normalizing handler that coalesces whatever it is given
into [42] makes [42] the canonical filter set. -/
theorem c9_witness :
    (⟨[], true⟩ : Chart Int).hasDim = true ∧
    (fun _ => ((some [FilterVal.plain (42 : Int)], []) :
        Option (List (FilterVal Int)) × List (DimCommand Int)))
      (toggledList (⟨[], true⟩ : Chart Int).filters
        (FilterArg.single (FilterVal.plain 1)))
      = (some [FilterVal.plain (42 : Int)], []) ∧
    filtersAccessor ((filterSetW
        (fun _ => ((some [FilterVal.plain (42 : Int)], []) :
          Option (List (FilterVal Int)) × List (DimCommand Int)))
        (⟨[], true⟩ : Chart Int)
        (FilterArg.single (FilterVal.plain 1))).1)
      = [FilterVal.plain (42 : Int)] :=
  ⟨rfl, rfl,
    (c9_applyFilters_canonical
      (fun _ => ((some [FilterVal.plain (42 : Int)], []) :
        Option (List (FilterVal Int)) × List (DimCommand Int)))
      (⟨[], true⟩ : Chart Int)
      (FilterArg.single (FilterVal.plain 1))).2.2.1 rfl
      [FilterVal.plain (42 : Int)] [] rfl⟩

/-- Counterexample for C3 as stated: on the filter set [3, 3] (the core does
not itself enforce uniqueness), toggling 3 twice removes both copies, leaving
[], which is not content-equal to [3, 3] (the element counts differ, so no
reading of content equality can hold). -/
theorem c3_counterexample :
    (filterSet (filterSet
        (⟨[FilterVal.plain (3 : Int), FilterVal.plain 3], true⟩ : Chart Int)
        (FilterArg.single (FilterVal.plain 3))).1
      (FilterArg.single (FilterVal.plain 3))).1.filters = [] ∧
    ¬ List.Perm ([] : List (FilterVal Int))
        [FilterVal.plain (3 : Int), FilterVal.plain 3] :=
  ⟨by decide, fun hp => absurd hp.length_eq (by decide)⟩

/-- C3 (amended): with the default handler bundle, double-toggling `v` is an
involution on the applied filter state provided the current set holds at most
one occurrence of `v` (which covers every set reachable through the default
handlers): afterwards the filter set is content-equal — equal as a multiset —
to its content before; a removed-and-readded value may move to the end. -/
theorem c3_amended_toggle_involution (c : Chart α) (v : FilterVal α)
    (h : c.filters.count v ≤ 1) :
    List.Perm
      (filterSet (filterSet c (FilterArg.single v)).1
        (FilterArg.single v)).1.filters
      c.filters := by
  have h2 : (filterSet (filterSet c (FilterArg.single v)).1
      (FilterArg.single v)).1.filters
        = toggleOne (toggleOne c.filters v) v := by
    rw [filterSet_filters, filterSet_filters]
    rfl
  rw [h2]
  by_cases hm : v ∈ c.filters
  · have hcount : c.filters.count v = 1 :=
      le_antisymm h (List.count_pos_iff.mpr hm)
    have hnot : v ∉ c.filters.erase v := by
      intro hmem
      have hpos : 0 < (c.filters.erase v).count v := List.count_pos_iff.mpr hmem
      rw [List.count_erase_self, hcount] at hpos
      exact absurd hpos (by decide)
    rw [toggleOne_of_mem hm, toggleOne_of_not_mem hnot]
    exact (List.perm_append_singleton v _).trans (List.perm_cons_erase hm).symm
  · rw [toggleOne_of_not_mem hm,
      toggleOne_of_mem (show v ∈ c.filters ++ [v] by simp),
      List.erase_append_right _ hm, List.erase_cons_head, List.append_nil]

/-- Witness for C3 (amended): the set [5, 3] holds 3 once; toggling 3 twice
leaves a permutation of it. -/
theorem c3_witness :
    (⟨[FilterVal.plain (5 : Int), FilterVal.plain 3], true⟩ :
        Chart Int).filters.count (FilterVal.plain 3) ≤ 1 ∧
    List.Perm
      (filterSet (filterSet
          (⟨[FilterVal.plain (5 : Int), FilterVal.plain 3], true⟩ : Chart Int)
          (FilterArg.single (FilterVal.plain 3))).1
        (FilterArg.single (FilterVal.plain 3))).1.filters
      [FilterVal.plain (5 : Int), FilterVal.plain 3] :=
  ⟨by decide,
    c3_amended_toggle_involution
      (⟨[FilterVal.plain (5 : Int), FilterVal.plain 3], true⟩ : Chart Int)
      (FilterVal.plain 3) (by decide)⟩

/-- C5: `filter(v)` toggles — remove when present, add when absent — except
that a batch argument (an array whose first element is an array, carrying no
`isFiltered` capability) is toggled element-wise; consequently, filtering an
empty chart with the batch of two distinct states yields both as filters, and
filtering again with the same batch restores the empty set. -/
theorem c5_batch_elementwise_toggle (c : Chart α) (v : FilterVal α)
    (vs : List (FilterVal α)) (hd : Bool) (a b : α) (hab : a ≠ b) :
    ((filterSet c (FilterArg.single v)).1.filters
        = if _defaultHasFilterHandler c.filters (some v)
            then _defaultRemoveFilterHandler c.filters v
            else _defaultAddFilterHandler c.filters v) ∧
    ((filterSet c (FilterArg.batch vs)).1.filters
        = vs.foldl (fun fs f => toggleOne fs f) c.filters) ∧
    ((filterSet (⟨[], hd⟩ : Chart α)
        (FilterArg.batch [FilterVal.plain a, FilterVal.plain b])).1.filters
      = [FilterVal.plain a, FilterVal.plain b]) ∧
    ((filterSet (filterSet (⟨[], hd⟩ : Chart α)
          (FilterArg.batch [FilterVal.plain a, FilterVal.plain b])).1
        (FilterArg.batch [FilterVal.plain a, FilterVal.plain b])).1.filters
      = []) := by
  have t1 : toggleOne ([] : List (FilterVal α)) (FilterVal.plain a)
      = [FilterVal.plain a] := by
    rw [toggleOne_of_not_mem (by simp)]
    rfl
  have t2 : toggleOne [FilterVal.plain a] (FilterVal.plain b)
      = [FilterVal.plain a, FilterVal.plain b] := by
    rw [toggleOne_of_not_mem (by simp [Ne.symm hab])]
    rfl
  have h3 : (filterSet (⟨[], hd⟩ : Chart α)
      (FilterArg.batch [FilterVal.plain a, FilterVal.plain b])).1.filters
        = [FilterVal.plain a, FilterVal.plain b] := by
    rw [filterSet_filters]
    show toggleOne (toggleOne [] (FilterVal.plain a)) (FilterVal.plain b)
        = [FilterVal.plain a, FilterVal.plain b]
    rw [t1, t2]
  refine ⟨by rw [filterSet_filters]; rfl, by rw [filterSet_filters]; rfl, h3, ?_⟩
  rw [filterSet_filters, h3]
  show toggleOne (toggleOne [FilterVal.plain a, FilterVal.plain b]
      (FilterVal.plain a)) (FilterVal.plain b) = []
  have s1 : toggleOne [FilterVal.plain a, FilterVal.plain b] (FilterVal.plain a)
      = [FilterVal.plain b] := by
    rw [toggleOne_of_mem (show FilterVal.plain a
        ∈ [FilterVal.plain a, FilterVal.plain b] by simp)]
    exact List.erase_cons_head _ _
  have s2 : toggleOne [FilterVal.plain b] (FilterVal.plain b) = [] := by
    rw [toggleOne_of_mem (show FilterVal.plain b ∈ [FilterVal.plain b] by simp)]
    exact List.erase_cons_head _ _
  rw [s1, s2]

/-- Witness for C5: the spec's scenario with the states "MA" and "TX": the
batch [["MA", "TX"]] on an empty chart yields the filters ["MA", "TX"], and
the same batch again restores []. -/
theorem c5_witness :
    ("MA" : String) ≠ "TX" ∧
    ((filterSet (⟨[], true⟩ : Chart String)
        (FilterArg.batch [FilterVal.plain "MA", FilterVal.plain "TX"])).1.filters
      = [FilterVal.plain "MA", FilterVal.plain "TX"]) ∧
    ((filterSet (filterSet (⟨[], true⟩ : Chart String)
          (FilterArg.batch [FilterVal.plain "MA", FilterVal.plain "TX"])).1
        (FilterArg.batch [FilterVal.plain "MA", FilterVal.plain "TX"])).1.filters
      = []) :=
  ⟨by decide,
    (c5_batch_elementwise_toggle (⟨[], true⟩ : Chart String)
      (FilterVal.plain "MA") [] true "MA" "TX" (by decide)).2.2.1,
    (c5_batch_elementwise_toggle (⟨[], true⟩ : Chart String)
      (FilterVal.plain "MA") [] true "MA" "TX" (by decide)).2.2.2⟩

omit [LinearOrder α] in
/-- C10: the no-argument `filter()` getter returns exactly the head of the
filter array (the first filter when non-empty, null when empty); filters beyond
the head are not observable through it. -/
theorem c10_filterGet_is_head (c : Chart α) :
    filterGet c = c.filters.head? := by
  cases h : c.filters <;> simp [filterGet, h]

/-- Witness for C10: with two active filters the getter exposes only the
first. -/
theorem c10_witness :
    filterGet (⟨[FilterVal.plain (7 : Int), FilterVal.plain 8], true⟩ : Chart Int)
      = some (FilterVal.plain 7) := by
  rw [c10_filterGet_is_head]
  rfl

end DcBase
